import Mathlib

/-!
# Verification of the aeo-answerable audit pipeline

Shallow embedding of the frontend report consumers
(`frontend/src/components/results/*.tsx`, the single-file dashboard app) and,
where the Python scoring backend is not part of the staged sources, models of
the Chunker / RetrievalSimulator / CompositeScorer built from the spec's words.
Scores are JavaScript numbers in the source; they are embedded as rationals,
with `Math.round` made explicit.
-/

namespace Aeo

/-- A metric's result as the frontend types it
(`config.ts`: `MetricResult { metric, score, weight }`). -/
structure MetricResult where
  metric : String
  score : ℚ
  weight : ℚ
deriving Repr, DecidableEq

/-- A page's `metrics` record: metric name keyed results
(JavaScript object, so keys are unique in well-formed data). -/
abbrev MetricsData := List (String × MetricResult)

/-- Reading `metrics[name]` on the keyed record. -/
def lookupMetric (metrics : MetricsData) (name : String) : Option MetricResult :=
  (metrics.find? (fun p => p.1 = name)).map Prod.snd

/-- The category registry of `config.ts` (`CATEGORY_CONFIG`): the five
category keys. -/
def categoryConfigKeys : List String :=
  ["structure", "content", "retrieval", "schema", "trust"]

/-- The metric registry of `config.ts` (`METRIC_CONFIG`): each metric
identifier with the category it is bound to. -/
def metricConfig : List (String × String) :=
  [("dom_to_token_ratio", "structure"),
   ("main_content_detectability", "structure"),
   ("semantic_tree_depth", "structure"),
   ("heading_hierarchy_validity", "structure"),
   ("heading_predictive_power", "content"),
   ("liftable_units_density", "content"),
   ("answer_first_compliance", "content"),
   ("anaphora_resolution", "content"),
   ("chunk_boundary_integrity", "retrieval"),
   ("duplicate_boilerplate_rate", "retrieval"),
   ("entity_schema_mapping", "schema"),
   ("schema_coverage_by_intent", "schema"),
   ("schema_quality_relationships", "schema"),
   ("citation_source_density", "trust"),
   ("freshness_signal_strength", "trust"),
   ("author_eeat_signals", "trust")]

/-- `METRIC_CONFIG[key]?.category`. -/
def metricConfigCategory (key : String) : Option String :=
  (metricConfig.find? (fun p => p.1 = key)).map Prod.snd

/-- `MetricsDeepDive.tsx` line 30: the score a metric row displays, from an
entry that is a raw number, a `MetricResult` object, or absent:
`typeof metricData === 'number' ? metricData : metricData?.score || 0`.
JavaScript `|| 0` replaces a falsy value by `0`; among rationals only `0`
is falsy. -/
def deepDiveScore (metricData : Option (ℚ ⊕ MetricResult)) : ℚ :=
  match metricData with
  | some (Sum.inl n) => n
  | some (Sum.inr m) => if m.score = 0 then 0 else m.score
  | none => 0

/-- `part_000` `MetricCategory` (lines 680-683): the category's metric names
looked up in the page's metrics record, keeping the present ones:
`category.metrics.map(name => metrics?.[name] ? {name, data} : null).filter(Boolean)`. -/
def categoryMetricsOf (categoryMetrics : List String) (metrics : MetricsData) :
    List (String × MetricResult) :=
  (categoryMetrics.map
    (fun name => (lookupMetric metrics name).map (fun d => (name, d)))).reduceOption

/-- `part_000` `MetricCategory` (lines 684-687): `null` when no metric of the
category is present, else `reduce((acc, m) => acc + m.data.score, 0) / length`. -/
def metricCategoryAvgScore (categoryMetrics : List String) (metrics : MetricsData) :
    Option ℚ :=
  let l := categoryMetricsOf categoryMetrics metrics
  if l.length = 0 then none
  else some ((l.foldl (fun acc m => acc + m.2.score) 0) / (l.length : ℚ))

/-- `SiteOverview.tsx` lines 104-110, one entry of the `forEach`: a metric
entry whose `METRIC_CONFIG` category is `cat` pushes its score. -/
def siteOverviewStep (cat : String) (acc : List ℚ) (p : String × MetricResult) :
    List ℚ :=
  match metricConfigCategory p.1 with
  | some c => if c = cat then acc ++ [p.2.score] else acc
  | none => acc

/-- `SiteOverview.tsx` lines 99-110: the page's score list for one category
(`pageCatSums[cat]`), built by walking the page's metric entries. -/
def siteOverviewCatScores (cat : String) (metrics : MetricsData) : List ℚ :=
  metrics.foldl (siteOverviewStep cat) []

/-- `SiteOverview.tsx` lines 113-118: the page's category average added into
the site totals, present only when the category has scores on the page:
`scores.reduce((a, b) => a + b, 0) / scores.length`. -/
def siteOverviewPageCatAvg (cat : String) (metrics : MetricsData) : Option ℚ :=
  let scores := siteOverviewCatScores cat metrics
  if scores.length = 0 then none
  else some (scores.foldl (· + ·) 0 / (scores.length : ℚ))

/-- A legacy audit entry (`part_000` `AuditResult`): only its score matters
to the consumers embedded here. -/
structure AuditResult where
  score : ℚ
deriving Repr, DecidableEq

/-- `part_000` `PageData.audits`: the legacy per-page audits; the dashboard
reads them through `?.`, so both are optional here. -/
structure PageAudits where
  structural : Option AuditResult
  clarity : Option AuditResult
deriving Repr, DecidableEq

/-- `part_000` `PageData`, restricted to the fields the embedded consumers
read: `url`, the optional `metrics` record, the legacy `audits`. -/
structure PageData where
  url : String
  metrics : Option MetricsData
  audits : PageAudits
deriving Repr, DecidableEq

/-- `p.metrics?.[metricName]?.score` (`part_000` line 804). -/
def pageMetricScore (m : String) (p : PageData) : Option ℚ :=
  (p.metrics.bind (fun md => lookupMetric md m)).map (fun r => r.score)

/-- `part_000` `getAvgMetricScore` (lines 802-807): mean of the metric's
scores over only the pages that report it, `0` when none does. -/
def getAvgMetricScore (pages : List PageData) (m : String) : ℚ :=
  let scores := pages.filterMap (pageMetricScore m)
  if 0 < scores.length then scores.foldl (· + ·) 0 / (scores.length : ℚ) else 0

/-- `SiteMetrics.tsx` lines 19-23, one page's contribution: every entry of
`page.metrics || {}` whose key is the metric adds its score
(`metricAverages[key] += val.score`). -/
def siteMetricsPageAdd (m : String) (acc : ℚ) (md : MetricsData) : ℚ :=
  md.foldl (fun a e => if e.1 = m then a + e.2.score else a) acc

/-- `SiteMetrics.tsx` lines 17-24: the accumulated total for one
`METRIC_CONFIG` key over all pages. -/
def siteMetricsTotal (pages : List PageData) (m : String) : ℚ :=
  pages.foldl (fun acc p => siteMetricsPageAdd m acc (p.metrics.getD [])) 0

/-- `SiteMetrics.tsx` lines 27-29: `metricAverages[key] /= (pages.length || 1)`
— the total divided by the number of all pages. -/
def siteMetricsAvg (pages : List PageData) (m : String) : ℚ :=
  siteMetricsTotal pages m /
    (if pages.length = 0 then 1 else (pages.length : ℚ))

/-- `part_000` `ReportData.retrieval_stats`: recall values can be absent in
the serialized report, so they are optional here. -/
structure RetrievalStats where
  recall_at_1 : Option ℚ
  recall_at_5 : Option ℚ
  query_count : ℕ
deriving Repr, DecidableEq

/-- `part_000` `ReportData`, restricted to what the dashboard reads:
the pages and the optional site-wide `retrieval_stats`. -/
structure ReportData where
  pages : List PageData
  retrieval_stats : Option RetrievalStats
deriving Repr, DecidableEq

/-- JavaScript `Math.round`: `⌊x + 0.5⌋` for every number. -/
def jsRound (q : ℚ) : ℤ := ⌊q + 1/2⌋

/-- JavaScript `x || 0` on an optionally-present number: a missing or falsy
(zero) value becomes `0`. -/
def jsOrZero (x : Option ℚ) : ℚ :=
  match x with
  | some v => if v = 0 then 0 else v
  | none => 0

/-- `part_000` Dashboard line 191:
`Math.round(pages.reduce((acc, p) => acc + (p.audits.structure?.score || 0), 0)
/ (pages.length || 1) * 100)`. -/
def dashAvgStructure (d : ReportData) : ℤ :=
  jsRound ((d.pages.foldl
      (fun acc p => acc + jsOrZero (p.audits.structural.map (fun a => a.score))) 0) /
    (if d.pages.length = 0 then 1 else (d.pages.length : ℚ)) * 100)

/-- `part_000` Dashboard line 192: the clarity counterpart of
`dashAvgStructure`. -/
def dashAvgClarity (d : ReportData) : ℤ :=
  jsRound ((d.pages.foldl
      (fun acc p => acc + jsOrZero (p.audits.clarity.map (fun a => a.score))) 0) /
    (if d.pages.length = 0 then 1 else (d.pages.length : ℚ)) * 100)

/-- `part_000` Dashboard line 193, the displayed retrieval recall:
`Math.round((data.retrieval_stats?.recall_at_5 ?? 0) * 100)` — `??` keeps a
present value, also a zero one, and falls back to `0` when the chain is
nullish. -/
def dashRecall (d : ReportData) : ℤ :=
  jsRound (((d.retrieval_stats.bind (fun s => s.recall_at_5)).getD 0) * 100)

/-- `part_000` Dashboard line 194, the composite score:
`Math.round((avgStructure + avgClarity + recall) / 3)`. -/
def dashGlobalScore (d : ReportData) : ℤ :=
  jsRound (((dashAvgStructure d : ℚ) + (dashAvgClarity d : ℚ) +
    (dashRecall d : ℚ)) / 3)

/-- A report whose `retrieval_stats` field is absent, with one page scoring
0.8 structure and 0.6 clarity. -/
def missingRecallReport : ReportData :=
  { pages := [⟨"https://example.com/a", none, ⟨some ⟨4/5⟩, some ⟨3/5⟩⟩⟩],
    retrieval_stats := none }

/-- The same report with `retrieval_stats` present and `recall_at_5 = 0`. -/
def zeroRecallReport : ReportData :=
  { pages := [⟨"https://example.com/a", none, ⟨some ⟨4/5⟩, some ⟨3/5⟩⟩⟩],
    retrieval_stats := some ⟨some 0, some 0, 0⟩ }

/-- A two-page report on which the two site-wide averages disagree: one page
reports `dom_to_token_ratio` with score 1, the other has no metrics record. -/
def divergeDemoPages : List PageData :=
  [{ url := "https://example.com/a",
     metrics := some [("dom_to_token_ratio", ⟨"dom_to_token_ratio", 1, 1⟩)],
     audits := ⟨none, none⟩ },
   { url := "https://example.com/b", metrics := none, audits := ⟨none, none⟩ }]

/-- Modelled from the spec: the CompositeScorer's weight-redistribution rule
(the Python scoring backend, `backend/auditor.py`, is not among the staged
sources). With `llm_enabled` false the faithfulness category's weight is
removed and every surviving category keeps
`new_weight[c] = old_weight[c] / (1 - faithfulness_weight)`; with
`llm_enabled` true the table is unchanged. -/
def redistributeWeights (weights : List (String × ℚ)) (llm_enabled : Bool) :
    List (String × ℚ) :=
  if llm_enabled then weights
  else
    let fw := ((weights.find? (fun p => p.1 = "faithfulness")).map Prod.snd).getD 0
    (weights.filter (fun p => p.1 ≠ "faithfulness")).map
      (fun p => (p.1, p.2 / (1 - fw)))

/-- The spec's §8 scenario table: faithfulness 0.15 beside three categories
at 0.30, 0.30, 0.25. -/
def specScenarioWeights : List (String × ℚ) :=
  [("structure", 3/10), ("content", 3/10), ("schema", 1/4),
   ("faithfulness", 3/20)]

/-- Modelled from the spec: a chunk as the RetrievalSimulator sees it (the
Python retrieval backend is not among the staged sources): an id, its
position in document order (the tie-break key), and its tokenized
sentences. -/
structure SimChunk where
  id : ℕ
  position : ℕ
  sentences : List (List String)
deriving Repr, DecidableEq

/-- All tokens of a chunk. -/
def chunkTokens (c : SimChunk) : List String := c.sentences.flatten

/-- Modelled from the spec: a token witnessing an extractable fact — a
number or date (carries a digit) or a named entity (capitalized). -/
def isFactToken (t : String) : Bool :=
  t.data.any Char.isDigit || t.data.any Char.isUpper

/-- A sentence containing a number, named entity, or date. -/
def sentenceHasFact (s : List String) : Bool := s.any isFactToken

/-- A chunk with at least one extractable fact. -/
def chunkHasFact (c : SimChunk) : Bool := c.sentences.any sentenceHasFact

/-- Modelled from the spec: a synthetic query with its ground-truth chunk. -/
structure SyntheticQuery where
  text : List String
  expected_chunk_id : ℕ
deriving Repr, DecidableEq

/-- Modelled from the spec: the deterministic question template
("What is X?") applied to the chunk's first fact sentence. -/
def mkQuery (c : SimChunk) : SyntheticQuery :=
  { text := "what" :: "is" :: ((c.sentences.find? sentenceHasFact).getD []),
    expected_chunk_id := c.id }

/-- Modelled from the spec: one query per qualifying semantic chunk, capped
at 20 per page; fewer than 3 qualifying chunks emit zero queries. -/
def generateQueries (semantic : List SimChunk) : List SyntheticQuery :=
  let qualifying := semantic.filter chunkHasFact
  if qualifying.length < 3 then []
  else (qualifying.take 20).map mkQuery

/-- Modelled from the spec: lexical overlap of query and chunk — token-set
intersection over union. -/
def lexicalOverlap (q : List String) (c : SimChunk) : ℚ :=
  let qs := q.toFinset
  let cs := (chunkTokens c).toFinset
  if (qs ∪ cs).card = 0 then 0
  else ((qs ∩ cs).card : ℚ) / ((qs ∪ cs).card : ℚ)

/-- Modelled from the spec: the ranking order — higher lexical overlap
first, ties broken by chunk position, earlier wins. -/
def ranksBefore (q : List String) (a b : SimChunk) : Prop :=
  lexicalOverlap q b < lexicalOverlap q a ∨
    (lexicalOverlap q a = lexicalOverlap q b ∧ a.position ≤ b.position)

instance ranksBeforeDecidable (q : List String) : DecidableRel (ranksBefore q) :=
  fun a b => by
    unfold ranksBefore
    infer_instance

instance ranksBeforeTotal (q : List String) : IsTotal SimChunk (ranksBefore q) :=
  ⟨by
    intro a b
    rcases lt_trichotomy (lexicalOverlap q a) (lexicalOverlap q b) with h | h | h
    · exact Or.inr (Or.inl h)
    · rcases le_total a.position b.position with hp | hp
      · exact Or.inl (Or.inr ⟨h, hp⟩)
      · exact Or.inr (Or.inr ⟨h.symm, hp⟩)
    · exact Or.inl (Or.inl h)⟩

instance ranksBeforeTrans (q : List String) : IsTrans SimChunk (ranksBefore q) :=
  ⟨by
    intro a b c hab hbc
    rcases hab with h1 | ⟨h1, p1⟩ <;> rcases hbc with h2 | ⟨h2, p2⟩
    · exact Or.inl (h2.trans h1)
    · exact Or.inl (h2 ▸ h1)
    · exact Or.inl (h1 ▸ h2)
    · exact Or.inr ⟨h1.trans h2, p1.trans p2⟩⟩

/-- Modelled from the spec: every chunk scored against the query, ranked by
relevance with the deterministic tie-break. -/
def rankChunks (q : List String) (chunks : List SimChunk) : List SimChunk :=
  List.insertionSort (ranksBefore q) chunks

/-- Recall statistics as the simulator returns them. -/
structure SimStats where
  recall_at_1 : ℚ
  recall_at_5 : ℚ
  query_count : ℕ
deriving Repr, DecidableEq

/-- Whether the query's expected chunk is the single top-ranked result. -/
def hitAt1 (chunks : List SimChunk) (q : SyntheticQuery) : Bool :=
  (rankChunks q.text chunks).head?.map SimChunk.id = some q.expected_chunk_id

/-- Whether the query's expected chunk appears anywhere in the top 5. -/
def hitAt5 (chunks : List SimChunk) (q : SyntheticQuery) : Bool :=
  q.expected_chunk_id ∈ ((rankChunks q.text chunks).take 5).map SimChunk.id

/-- Modelled from the spec: `simulate(page, chunks) -> RetrievalStats` —
recall@1 and recall@5 as fractions over the generated queries, `none`
(reported as null) when no queries were generated. -/
def simulate (semantic chunks : List SimChunk) : Option SimStats :=
  let queries := generateQueries semantic
  if queries.length = 0 then none
  else some
    { recall_at_1 := (queries.countP (hitAt1 chunks) : ℚ) / (queries.length : ℚ),
      recall_at_5 := (queries.countP (hitAt5 chunks) : ℚ) / (queries.length : ℚ),
      query_count := queries.length }

/-- Two chunks that both carry an extractable fact: fewer than the three
the spec requires before any query is emitted. -/
def twoFactChunks : List SimChunk :=
  [⟨0, 0, [["Alpha", "1"]]⟩, ⟨1, 1, [["Beta", "2"]]⟩]

/-- Three single-sentence chunks, each with a distinct fact. -/
def threeFactChunks : List SimChunk :=
  [⟨0, 0, [["Alpha", "1"]]⟩, ⟨1, 1, [["Beta", "2"]]⟩, ⟨2, 2, [["Gamma", "3"]]⟩]

/-- Modelled from the spec (§3): a block element's tag. -/
inductive BlockTag
  | heading (level : ℕ)
  | paragraph
  | listItem
  | tableBlock
  | codeBlock
deriving Repr, DecidableEq

/-- Modelled from the spec (§3): a block element — its tag and tokenized
text (the Python chunker is not among the staged sources). -/
structure Block where
  tag : BlockTag
  tokens : List String
deriving Repr, DecidableEq

/-- Whether a block is a heading. -/
def isHeading (b : Block) : Bool :=
  match b.tag with
  | BlockTag.heading _ => true
  | _ => false

/-- Whether an accumulated chunk already contains a non-heading block. -/
def hasNonHeading (blocks : List Block) : Bool :=
  blocks.any (fun b => !isHeading b)

/-- Total token count of a block run. -/
def blocksTokenCount (blocks : List Block) : ℕ :=
  (blocks.map (fun b => b.tokens.length)).sum

/-- Modelled from the spec (§4.1 semantic chunking), one step of the walk
over blocks in document order: a heading closes the current chunk when that
chunk already has a body (a bare heading merges into the next chunk instead);
a body block closes the current chunk when adding it would exceed the token
budget and the chunk has a body, else it accumulates. -/
def semanticStep (maxTokens : ℕ) (st : List (List Block) × List Block)
    (b : Block) : List (List Block) × List Block :=
  if isHeading b = true then
    if hasNonHeading st.2 = true then (st.1 ++ [st.2], [b])
    else (st.1, st.2 ++ [b])
  else
    if maxTokens < blocksTokenCount st.2 + b.tokens.length ∧
        hasNonHeading st.2 = true then
      (st.1 ++ [st.2], [b])
    else (st.1, st.2 ++ [b])

/-- Modelled from the spec (§4.1): the semantic chunks of a block sequence —
the walk's finished chunks, plus the open chunk when it has a body; a
trailing chunk of bare headings (heading with no body) is dropped. -/
def semanticChunks (maxTokens : ℕ) (blocks : List Block) : List (List Block) :=
  let st := blocks.foldl (semanticStep maxTokens) ([], [])
  if hasNonHeading st.2 = true then st.1 ++ [st.2] else st.1

/-- The page's flattened token sequence. -/
def flattenTokens (blocks : List Block) : List String :=
  (blocks.map Block.tokens).flatten

/-- Modelled from the spec (§4.1 sliding-window chunking): windows of `w`
tokens at stride `s` over the flattened tokens, the last window truncated;
each chunk carries its text and its `(start, end)` offsets. -/
def slidingChunks (w s : ℕ) (tokens : List String) :
    List (List String × ℕ × ℕ) :=
  (List.range ((tokens.length + s - 1) / s)).map (fun i =>
    ((tokens.drop (i * s)).take w, i * s, min (i * s + w) tokens.length))

/-- The `(start, end)` offset intervals of the semantic chunks, accumulated
in document order. -/
def semanticIntervals (maxTokens : ℕ) (blocks : List Block) : List (ℕ × ℕ) :=
  ((semanticChunks maxTokens blocks).foldl
    (fun (st : List (ℕ × ℕ) × ℕ) ch =>
      (st.1 ++ [(st.2, st.2 + blocksTokenCount ch)], st.2 + blocksTokenCount ch))
    ([], 0)).1

/-- Length of the overlap of two offset intervals. -/
def intervalInter (a b : ℕ × ℕ) : ℕ := min a.2 b.2 - max a.1 b.1

/-- Modelled from the spec (§4.1): Jaccard overlap of two `[start, end]`
intervals — intersection length over union length, 0 for an empty union. -/
def intervalJaccard (a b : ℕ × ℕ) : ℚ :=
  let inter := intervalInter a b
  let uni := (a.2 - a.1) + (b.2 - b.1) - inter
  if uni = 0 then 0 else (inter : ℚ) / (uni : ℚ)

/-- The best (maximum) Jaccard overlap of a semantic chunk with any sliding
chunk. -/
def bestOverlap (c : ℕ × ℕ) (sliding : List (ℕ × ℕ)) : ℚ :=
  (sliding.map (intervalJaccard c)).foldl max 0

/-- Modelled from the spec (§4.1): consistency = mean best-overlap Jaccard
across semantic chunks, and 0 — a defined number, not NaN — when there are
no semantic chunks. -/
def consistencyScore (sem sliding : List (ℕ × ℕ)) : ℚ :=
  if sem.length = 0 then 0
  else ((sem.map (fun c => bestOverlap c sliding)).sum) / (sem.length : ℚ)

/-- The chunker's result record. -/
structure ChunkResult where
  semantic : List (List Block)
  sliding : List (List String × ℕ × ℕ)
  consistency_score : ℚ
deriving Repr, DecidableEq

/-- Modelled from the spec (§4.1): `chunk(page)` with the documented
defaults — 300-token semantic budget, 200-token windows at stride 100. -/
def chunkPage (blocks : List Block) : ChunkResult :=
  let sem := semanticChunks 300 blocks
  let slid := slidingChunks 200 100 (flattenTokens blocks)
  { semantic := sem,
    sliding := slid,
    consistency_score :=
      consistencyScore (semanticIntervals 300 blocks)
        (slid.map (fun c => (c.2.1, c.2.2))) }

/-- A page consisting of one bare heading block and nothing else. -/
def headingOnlyPage : List Block := [⟨BlockTag.heading 1, ["Pricing"]⟩]

end Aeo

namespace Aeo

theorem foldl_add_map_eq_sum {α : Type} (f : α → ℚ) (l : List α) (c : ℚ) :
    l.foldl (fun acc m => acc + f m) c = c + (l.map f).sum := by
  induction l generalizing c with
  | nil => simp
  | cons a t ih =>
    simp only [List.foldl_cons, List.map_cons, List.sum_cons, ih]
    ring

theorem siteOverviewCatScores_eq_filter_map (cat : String) (l : MetricsData)
    (acc : List ℚ) :
    l.foldl (siteOverviewStep cat) acc =
      acc ++ (l.filter (fun p => metricConfigCategory p.1 = some cat)).map
        (fun p => p.2.score) := by
  induction l generalizing acc with
  | nil => simp
  | cons a t ih =>
    simp only [List.foldl_cons]
    rcases h : metricConfigCategory a.1 with _ | c2
    · rw [show siteOverviewStep cat acc a = acc by simp [siteOverviewStep, h]]
      rw [ih]
      simp [List.filter_cons, h]
    · by_cases hc : c2 = cat
      · subst hc
        rw [show siteOverviewStep c2 acc a = acc ++ [a.2.score] by
          simp [siteOverviewStep, h]]
        rw [ih]
        simp [List.filter_cons, h]
      · rw [show siteOverviewStep cat acc a = acc by
          simp [siteOverviewStep, h, hc]]
        rw [ih]
        have hne : ¬ (metricConfigCategory a.1 = some cat) := by simp [h, hc]
        simp [List.filter_cons, hne]

/-- C5: the metric registry (`METRIC_CONFIG`) enumerates exactly sixteen
distinct metric identifiers, each bound to exactly one category drawn from
`CATEGORY_CONFIG`'s keys {structure, content, retrieval, schema, trust}. -/
theorem metric_registry_sixteen_categories :
    metricConfig.length = 16 ∧
    (metricConfig.map Prod.fst).Nodup ∧
    ∀ p ∈ metricConfig, p.2 ∈ categoryConfigKeys := by
  decide

/-- C9: the metrics deep-dive view displays the supplied entry's score when
one is present (raw number or `MetricResult` object) and `0` when the entry
is absent, so a missing metric is rendered exactly like one that scored 0. -/
theorem deep_dive_missing_metric_scores_zero (n : ℚ) (m : MetricResult) :
    deepDiveScore (some (Sum.inl n)) = n ∧
    deepDiveScore (some (Sum.inr m)) = m.score ∧
    deepDiveScore none = 0 ∧
    deepDiveScore none = deepDiveScore (some (Sum.inl 0)) := by
  refine ⟨rfl, ?_, rfl, rfl⟩
  unfold deepDiveScore
  rcases eq_or_ne m.score 0 with h | h <;> simp [h]

/-- C4: per page and category, both frontend aggregators compute the
unweighted arithmetic mean of the scores of that category's metrics present
on the page: `part_000`'s `MetricCategory` averages exactly the category
metrics present in the page record, and `SiteOverview`'s per-page category
aggregation averages exactly the scores of the page's entries registered
under that category. -/
theorem category_score_is_unweighted_mean (categoryMetrics : List String)
    (cat : String) (metrics : MetricsData)
    (h1 : categoryMetricsOf categoryMetrics metrics ≠ [])
    (h2 : siteOverviewCatScores cat metrics ≠ []) :
    metricCategoryAvgScore categoryMetrics metrics =
      some (((categoryMetricsOf categoryMetrics metrics).map
          (fun m => m.2.score)).sum /
        ((categoryMetricsOf categoryMetrics metrics).length : ℚ)) ∧
    siteOverviewPageCatAvg cat metrics =
      some ((siteOverviewCatScores cat metrics).sum /
        ((siteOverviewCatScores cat metrics).length : ℚ)) ∧
    siteOverviewCatScores cat metrics =
      (metrics.filter (fun p => metricConfigCategory p.1 = some cat)).map
        (fun p => p.2.score) := by
  refine ⟨?_, ?_, ?_⟩
  · rw [metricCategoryAvgScore]
    rw [if_neg (by simpa [List.length_eq_zero] using h1)]
    rw [foldl_add_map_eq_sum]
    simp
  · rw [siteOverviewPageCatAvg]
    rw [if_neg (by simpa [List.length_eq_zero] using h2)]
    have : (siteOverviewCatScores cat metrics).foldl (· + ·) 0 =
        (siteOverviewCatScores cat metrics).sum := by
      simpa using foldl_add_map_eq_sum (fun x => x) (siteOverviewCatScores cat metrics) 0
    rw [this]
  · simpa using siteOverviewCatScores_eq_filter_map cat metrics []

/-- C4 witness: a one-metric page evaluated concretely. -/
theorem category_score_is_unweighted_mean_witness :
    metricCategoryAvgScore ["dom_to_token_ratio"]
        [("dom_to_token_ratio", ⟨"dom_to_token_ratio", 1/2, 1⟩)] =
      some (1/2) ∧
    siteOverviewPageCatAvg "structure"
        [("dom_to_token_ratio", ⟨"dom_to_token_ratio", 1/2, 1⟩)] =
      some (1/2) := by
  have h := category_score_is_unweighted_mean ["dom_to_token_ratio"] "structure"
    [("dom_to_token_ratio", ⟨"dom_to_token_ratio", 1/2, 1⟩)]
    (by decide) (by decide)
  refine ⟨?_, ?_⟩
  · rw [h.1]
    norm_num [categoryMetricsOf, lookupMetric, List.find?]
  · rw [h.2.1]
    norm_num [siteOverviewCatScores, siteOverviewStep, metricConfigCategory,
      metricConfig, List.find?]

theorem inner_fold_no_key (m : String) (md : MetricsData) (acc : ℚ)
    (h : m ∉ md.map Prod.fst) :
    md.foldl (fun a e => if e.1 = m then a + e.2.score else a) acc = acc := by
  induction md generalizing acc with
  | nil => rfl
  | cons e t ih =>
    simp only [List.map_cons, List.mem_cons] at h
    push_neg at h
    simp only [List.foldl_cons]
    rw [if_neg (fun hh => h.1 hh.symm)]
    exact ih acc h.2

theorem inner_fold_unique_key (m : String) (md : MetricsData) (acc : ℚ)
    (r : MetricResult) (hnd : (md.map Prod.fst).Nodup)
    (hl : lookupMetric md m = some r) :
    md.foldl (fun a e => if e.1 = m then a + e.2.score else a) acc =
      acc + r.score := by
  induction md generalizing acc with
  | nil => simp [lookupMetric] at hl
  | cons e t ih =>
    simp only [List.map_cons, List.nodup_cons] at hnd
    by_cases he : e.1 = m
    · have hr : r = e.2 := by
        rw [lookupMetric, List.find?_cons_of_pos _ (by simpa using he)] at hl
        simpa using hl.symm
      have hm : m ∉ t.map Prod.fst := he ▸ hnd.1
      simp only [List.foldl_cons, if_pos he]
      rw [inner_fold_no_key m t _ hm, hr]
    · rw [lookupMetric, List.find?_cons_of_neg _ (by simpa using he)] at hl
      simp only [List.foldl_cons, if_neg he]
      exact ih acc hnd.2 hl

theorem filterMap_length_all_some {α β : Type} (f : α → Option β) (l : List α)
    (h : ∀ x ∈ l, (f x).isSome) : (l.filterMap f).length = l.length := by
  induction l with
  | nil => rfl
  | cons a t ih =>
    obtain ⟨b, hb⟩ := Option.isSome_iff_exists.mp (h a (List.mem_cons_self a t))
    rw [List.filterMap_cons, hb]
    simp [ih (fun x hx => h x (List.mem_cons_of_mem a hx))]

theorem site_fold_eq (m : String) (pages : List PageData) (acc : ℚ)
    (hnodup : ∀ p ∈ pages, ((p.metrics.getD []).map Prod.fst).Nodup)
    (hall : ∀ p ∈ pages, (pageMetricScore m p).isSome) :
    pages.foldl (fun acc p => siteMetricsPageAdd m acc (p.metrics.getD [])) acc =
      acc + (pages.filterMap (pageMetricScore m)).sum := by
  induction pages generalizing acc with
  | nil => simp
  | cons p t ih =>
    obtain ⟨s, hs⟩ := Option.isSome_iff_exists.mp
      (hall p (List.mem_cons_self p t))
    rcases hmd : p.metrics with _ | md
    · simp [pageMetricScore, hmd] at hs
    · obtain ⟨r, hr, hsr⟩ : ∃ r, lookupMetric md m = some r ∧ r.score = s := by
        rw [pageMetricScore, hmd] at hs
        simpa using hs
      simp only [List.foldl_cons]
      rw [show siteMetricsPageAdd m acc (p.metrics.getD []) = acc + r.score by
        rw [hmd]
        exact inner_fold_unique_key m md acc r
          (by simpa [hmd] using hnodup p (List.mem_cons_self p t)) hr]
      rw [ih _ (fun q hq => hnodup q (List.mem_cons_of_mem p hq))
        (fun q hq => hall q (List.mem_cons_of_mem p hq))]
      rw [List.filterMap_cons, hs, List.sum_cons, hsr]
      ring

/-- C10: on a report in which every page's metrics record contains the
metric (and records have unique keys, as JavaScript objects do),
`SiteMetrics`'s site-wide average equals the dashboard's
`getAvgMetricScore`; and on `divergeDemoPages`, where one page lacks the
metric, the two computations differ. -/
theorem site_metric_averages_agree (pages : List PageData) (m : String)
    (hnodup : ∀ p ∈ pages, ((p.metrics.getD []).map Prod.fst).Nodup)
    (hall : ∀ p ∈ pages, (pageMetricScore m p).isSome) :
    siteMetricsAvg pages m = getAvgMetricScore pages m ∧
    siteMetricsAvg divergeDemoPages "dom_to_token_ratio" ≠
      getAvgMetricScore divergeDemoPages "dom_to_token_ratio" := by
  constructor
  · have hlen : (pages.filterMap (pageMetricScore m)).length = pages.length :=
      filterMap_length_all_some _ _ hall
    have htot : siteMetricsTotal pages m =
        (pages.filterMap (pageMetricScore m)).sum := by
      simpa using site_fold_eq m pages 0 hnodup hall
    rcases eq_or_ne pages [] with hnil | hnil
    · subst hnil
      simp [siteMetricsAvg, siteMetricsTotal, getAvgMetricScore]
    · have hpos : 0 < pages.length := List.length_pos.mpr hnil
      rw [siteMetricsAvg, getAvgMetricScore, htot]
      rw [if_neg (by omega), if_pos (by omega)]
      rw [show (pages.filterMap (pageMetricScore m)).foldl (· + ·) 0 =
          (pages.filterMap (pageMetricScore m)).sum by
        simpa using foldl_add_map_eq_sum (fun x => x)
          (pages.filterMap (pageMetricScore m)) 0]
      rw [hlen]
  · norm_num [siteMetricsAvg, siteMetricsTotal, siteMetricsPageAdd,
      getAvgMetricScore, pageMetricScore, lookupMetric, divergeDemoPages,
      List.find?, List.filterMap]

theorem find?_key_unique {β : Type} (k : String) (v : β) (l : List (String × β))
    (hnd : (l.map Prod.fst).Nodup) (hmem : (k, v) ∈ l) :
    l.find? (fun p => p.1 = k) = some (k, v) := by
  induction l with
  | nil => cases hmem
  | cons e t ih =>
    simp only [List.map_cons, List.nodup_cons] at hnd
    rcases List.mem_cons.mp hmem with he | ht
    · rw [← he]
      exact List.find?_cons_of_pos _ (by simp)
    · by_cases hk : e.1 = k
      · exfalso
        exact hnd.1 (hk ▸ List.mem_map.mpr ⟨(k, v), ht, rfl⟩)
      · rw [List.find?_cons_of_neg _ (by simpa using hk)]
        exact ih hnd.2 ht

theorem filter_ne_key_of_not_mem {β : Type} (k : String) (l : List (String × β))
    (h : k ∉ l.map Prod.fst) : l.filter (fun p => p.1 ≠ k) = l :=
  List.filter_eq_self.mpr (fun p hp => by
    simp only [decide_eq_true_eq, ne_eq]
    exact fun hk => h (hk ▸ List.mem_map.mpr ⟨p, hp, rfl⟩))

theorem sum_filter_ne_key (k : String) (v : ℚ) (l : List (String × ℚ))
    (hnd : (l.map Prod.fst).Nodup) (hmem : (k, v) ∈ l) :
    ((l.filter (fun p => p.1 ≠ k)).map Prod.snd).sum =
      (l.map Prod.snd).sum - v := by
  induction l with
  | nil => cases hmem
  | cons e t ih =>
    simp only [List.map_cons, List.nodup_cons] at hnd
    rcases List.mem_cons.mp hmem with he | ht
    · have hke : e.1 = k := by rw [← he]
      have hkt : k ∉ t.map Prod.fst := hke ▸ hnd.1
      rw [List.filter_cons_of_neg (by simpa using hke)]
      rw [filter_ne_key_of_not_mem k t hkt]
      have hv : e.2 = v := by rw [← he]
      simp [hv]
    · have hke : e.1 ≠ k := fun hk =>
        hnd.1 (hk ▸ List.mem_map.mpr ⟨(k, v), ht, rfl⟩)
      rw [List.filter_cons_of_pos (by simpa using hke)]
      simp only [List.map_cons, List.sum_cons, ih hnd.2 ht]
      ring

/-- C2: with `llm_enabled = false` and a valid base table (distinct category
keys, positive weights summing to 1, a faithfulness entry and at least one
other category), the composite scorer drops the faithfulness category, gives
every surviving category its old weight divided by `1 - faithfulness_weight`,
and the redistributed weights sum to exactly 1 — hence within 1e-9 of 1. -/
theorem redistribution_weights_sum_one (weights : List (String × ℚ)) (fw : ℚ)
    (hnd : (weights.map Prod.fst).Nodup)
    (hmem : ("faithfulness", fw) ∈ weights)
    (hpos : ∀ p ∈ weights, 0 < p.2)
    (hsum : (weights.map Prod.snd).sum = 1)
    (hother : ∃ q ∈ weights, q.1 ≠ "faithfulness") :
    redistributeWeights weights false =
      (weights.filter (fun p => p.1 ≠ "faithfulness")).map
        (fun p => (p.1, p.2 / (1 - fw))) ∧
    (∀ p ∈ redistributeWeights weights false, p.1 ≠ "faithfulness") ∧
    (∀ p ∈ weights, p.1 ≠ "faithfulness" →
      (p.1, p.2 / (1 - fw)) ∈ redistributeWeights weights false) ∧
    ((redistributeWeights weights false).map Prod.snd).sum = 1 ∧
    |((redistributeWeights weights false).map Prod.snd).sum - 1| ≤
      1 / 1000000000 := by
  have hfind : weights.find? (fun p => p.1 = "faithfulness") =
      some ("faithfulness", fw) := find?_key_unique _ _ _ hnd hmem
  have heq : redistributeWeights weights false =
      (weights.filter (fun p => p.1 ≠ "faithfulness")).map
        (fun p => (p.1, p.2 / (1 - fw))) := by
    rw [redistributeWeights]
    simp [hfind]
  have hrest : ((weights.filter (fun p => p.1 ≠ "faithfulness")).map
      Prod.snd).sum = 1 - fw := by
    rw [sum_filter_ne_key "faithfulness" fw weights hnd hmem, hsum]
  have hfw1 : 0 < 1 - fw := by
    obtain ⟨q, hq, hqne⟩ := hother
    have hq2 : q.2 ≤ ((weights.filter (fun p => p.1 ≠ "faithfulness")).map
        Prod.snd).sum := by
      apply List.single_le_sum
      · intro x hx
        obtain ⟨p, hp, rfl⟩ := List.mem_map.mp hx
        exact (hpos p (List.mem_filter.mp hp).1).le
      · exact List.mem_map.mpr
          ⟨q, List.mem_filter.mpr ⟨hq, by simpa using hqne⟩, rfl⟩
    have hq0 := hpos q hq
    rw [hrest] at hq2
    linarith
  have hsum1 : ((redistributeWeights weights false).map Prod.snd).sum = 1 := by
    rw [heq, List.map_map]
    have hcomp : (Prod.snd ∘ fun p : String × ℚ => (p.1, p.2 / (1 - fw))) =
        fun p : String × ℚ => p.2 * (1 - fw)⁻¹ := by
      funext p
      simp [div_eq_mul_inv]
    rw [hcomp]
    rw [List.sum_map_mul_right]
    rw [hrest]
    field_simp
  refine ⟨heq, ?_, ?_, hsum1, ?_⟩
  · intro p hp
    rw [heq] at hp
    obtain ⟨q, hq, rfl⟩ := List.mem_map.mp hp
    simpa using (List.mem_filter.mp hq).2
  · intro p hp hpne
    rw [heq]
    exact List.mem_map.mpr ⟨p, List.mem_filter.mpr ⟨hp, by simpa using hpne⟩, rfl⟩
  · rw [hsum1]
    norm_num

/-- C2 witness: the spec's §8 scenario, faithfulness 0.15 beside
{0.30, 0.30, 0.25}, redistributed and summing to 1. -/
theorem redistribution_weights_sum_one_witness :
    ((redistributeWeights specScenarioWeights false).map Prod.snd).sum = 1 :=
  (redistribution_weights_sum_one specScenarioWeights (3/20)
    (by decide) (by simp [specScenarioWeights])
    (by intro p hp; fin_cases hp <;> norm_num)
    (by norm_num [specScenarioWeights])
    ⟨("structure", 3/10), by simp [specScenarioWeights], by decide⟩).2.2.2.1

theorem hitAt1_imp_hitAt5 (chunks : List SimChunk) (q : SyntheticQuery)
    (h : hitAt1 chunks q = true) : hitAt5 chunks q = true := by
  simp only [hitAt1, decide_eq_true_eq] at h
  simp only [hitAt5, decide_eq_true_eq]
  rcases hl : rankChunks q.text chunks with _ | ⟨a, t⟩
  · rw [hl] at h
    simp at h
  · rw [hl] at h
    simp only [List.head?_cons, Option.map_some'] at h
    have ha : a.id = q.expected_chunk_id := by
      injection h
    rw [List.take_succ_cons, List.map_cons, ha]
    exact List.mem_cons_self _ _

/-- C3: whenever the simulator's query set is non-empty, the returned stats
carry `recall_at_1` = fraction of queries whose expected chunk is the single
top-ranked result, `recall_at_5` = fraction where it appears anywhere in the
top 5, and `recall_at_5 ≥ recall_at_1`. -/
theorem recall_monotonicity (semantic chunks : List SimChunk)
    (h : generateQueries semantic ≠ []) :
    ∃ stats : SimStats, simulate semantic chunks = some stats ∧
      stats.recall_at_1 =
        ((generateQueries semantic).countP (hitAt1 chunks) : ℚ) /
          ((generateQueries semantic).length : ℚ) ∧
      stats.recall_at_5 =
        ((generateQueries semantic).countP (hitAt5 chunks) : ℚ) /
          ((generateQueries semantic).length : ℚ) ∧
      stats.recall_at_1 ≤ stats.recall_at_5 := by
  have hlen : ¬ ((generateQueries semantic).length = 0) := by
    simpa [List.length_eq_zero] using h
  refine ⟨SimStats.mk
      (((generateQueries semantic).countP (hitAt1 chunks) : ℚ) /
        ((generateQueries semantic).length : ℚ))
      (((generateQueries semantic).countP (hitAt5 chunks) : ℚ) /
        ((generateQueries semantic).length : ℚ))
      (generateQueries semantic).length, ?_, rfl, rfl, ?_⟩
  · simp only [simulate]
    rw [if_neg hlen]
  · have hmono : (generateQueries semantic).countP (hitAt1 chunks) ≤
        (generateQueries semantic).countP (hitAt5 chunks) :=
      List.countP_mono_left (fun q _ => hitAt1_imp_hitAt5 chunks q)
    exact div_le_div_of_nonneg_right (by exact_mod_cast hmono) (by positivity)

/-- C3 witness: three fact-carrying chunks, ranked against themselves. -/
theorem recall_monotonicity_witness :
    ∃ stats : SimStats, simulate threeFactChunks threeFactChunks = some stats ∧
      stats.recall_at_1 =
        ((generateQueries threeFactChunks).countP (hitAt1 threeFactChunks) : ℚ) /
          ((generateQueries threeFactChunks).length : ℚ) ∧
      stats.recall_at_5 =
        ((generateQueries threeFactChunks).countP (hitAt5 threeFactChunks) : ℚ) /
          ((generateQueries threeFactChunks).length : ℚ) ∧
      stats.recall_at_1 ≤ stats.recall_at_5 :=
  recall_monotonicity threeFactChunks threeFactChunks (by decide)

/-- C6 counterexample: a page with exactly two qualifying (fact-carrying)
chunks generates zero queries, not one per qualifying chunk. -/
theorem query_per_chunk_counterexample :
    (twoFactChunks.filter chunkHasFact).length = 2 ∧
    generateQueries twoFactChunks = [] := by
  decide

/-- C6 amended: the simulator emits one query per qualifying chunk only when
at least 3 qualifying chunks exist, truncating to the first 20 of them
(`min 20 k` queries for `k` qualifying chunks); with fewer than 3 qualifying
chunks it emits zero queries; the total never exceeds 20. -/
theorem one_query_per_qualifying_chunk (semantic : List SimChunk) :
    (generateQueries semantic).length ≤ 20 ∧
    ((semantic.filter chunkHasFact).length < 3 →
      generateQueries semantic = []) ∧
    (3 ≤ (semantic.filter chunkHasFact).length →
      generateQueries semantic =
        ((semantic.filter chunkHasFact).take 20).map mkQuery ∧
      (generateQueries semantic).length =
        min 20 (semantic.filter chunkHasFact).length) := by
  refine ⟨?_, ?_, ?_⟩
  · rw [generateQueries]
    split
    · simp
    · simp [List.length_take]
  · intro hk
    rw [generateQueries]
    rw [if_pos hk]
  · intro hk
    rw [generateQueries]
    rw [if_neg (by omega)]
    simp [List.length_take]

/-- C8: the retrieval simulator is deterministic — identical page/chunk
inputs give identical synthetic queries, identical rankings and identical
stats — and its ranking is totally ordered by the deterministic relation
`ranksBefore` (higher lexical overlap first, ties broken by earlier chunk
position) while keeping exactly the input chunks. -/
theorem retrieval_simulator_deterministic (s₁ s₂ c₁ c₂ : List SimChunk)
    (q : List String) (chunks : List SimChunk)
    (hs : s₁ = s₂) (hc : c₁ = c₂) :
    generateQueries s₁ = generateQueries s₂ ∧
    rankChunks q c₁ = rankChunks q c₂ ∧
    simulate s₁ c₁ = simulate s₂ c₂ ∧
    (rankChunks q chunks).Sorted (ranksBefore q) ∧
    (rankChunks q chunks).Perm chunks := by
  subst hs
  subst hc
  exact ⟨rfl, rfl, rfl, List.sorted_insertionSort _ _,
    List.perm_insertionSort _ _⟩

/-- C8 witness: the determinism and tie-break statement evaluated on the
three-chunk demo input. -/
theorem retrieval_simulator_deterministic_witness :
    generateQueries threeFactChunks = generateQueries threeFactChunks ∧
    rankChunks ["what"] twoFactChunks = rankChunks ["what"] twoFactChunks ∧
    simulate threeFactChunks twoFactChunks = simulate threeFactChunks twoFactChunks ∧
    (rankChunks ["what"] twoFactChunks).Sorted (ranksBefore ["what"]) ∧
    (rankChunks ["what"] twoFactChunks).Perm twoFactChunks :=
  retrieval_simulator_deterministic threeFactChunks threeFactChunks
    twoFactChunks twoFactChunks ["what"] twoFactChunks rfl rfl

theorem intervalJaccard_nonneg (a b : ℕ × ℕ) : 0 ≤ intervalJaccard a b := by
  simp only [intervalJaccard]
  split
  · exact le_refl 0
  · positivity

theorem intervalJaccard_le_one (a b : ℕ × ℕ) : intervalJaccard a b ≤ 1 := by
  simp only [intervalJaccard]
  split
  · norm_num
  · rename_i h
    rw [div_le_one (by exact_mod_cast Nat.pos_of_ne_zero h)]
    have hle : intervalInter a b ≤
        (a.2 - a.1) + (b.2 - b.1) - intervalInter a b := by
      rw [intervalInter]
      omega
    exact_mod_cast hle

theorem foldl_max_init_le (l : List ℚ) (c : ℚ) : c ≤ l.foldl max c := by
  induction l generalizing c with
  | nil => exact le_refl c
  | cons a t ih => exact le_trans (le_max_left c a) (ih (max c a))

theorem foldl_max_le_of_all (l : List ℚ) (c : ℚ) (hc : c ≤ 1)
    (h : ∀ x ∈ l, x ≤ 1) : l.foldl max c ≤ 1 := by
  induction l generalizing c with
  | nil => simpa using hc
  | cons a t ih =>
    exact ih (max c a) (max_le hc (h a (List.mem_cons_self a t)))
      (fun x hx => h x (List.mem_cons_of_mem a hx))

theorem bestOverlap_nonneg (c : ℕ × ℕ) (sliding : List (ℕ × ℕ)) :
    0 ≤ bestOverlap c sliding :=
  foldl_max_init_le _ 0

theorem bestOverlap_le_one (c : ℕ × ℕ) (sliding : List (ℕ × ℕ)) :
    bestOverlap c sliding ≤ 1 := by
  apply foldl_max_le_of_all _ _ (by norm_num)
  intro x hx
  obtain ⟨y, _, rfl⟩ := List.mem_map.mp hx
  exact intervalJaccard_le_one c y

/-- C7 counterexample: a single-block page whose block is a bare heading
yields zero semantic chunks — the trailing heading with no body is dropped —
not exactly one. -/
theorem single_heading_page_counterexample :
    headingOnlyPage.length = 1 ∧
    (chunkPage headingOnlyPage).semantic = [] := by
  constructor
  · rfl
  · rfl

/-- C7 (amended): an empty page yields empty semantic and sliding chunk
lists and consistency 0 (a defined rational, not NaN); a single-block page
whose block is not a bare heading yields exactly one semantic chunk, with
consistency computed by the normal path — the best sliding-window overlap of
that chunk, a defined value in [0, 1]. A single bare-heading page instead
yields zero semantic chunks. -/
theorem chunker_edge_cases (b : Block) (hb : isHeading b = false) :
    (chunkPage []).semantic = [] ∧
    (chunkPage []).sliding = [] ∧
    (chunkPage []).consistency_score = 0 ∧
    (chunkPage [b]).semantic = [[b]] ∧
    (chunkPage [b]).consistency_score =
      bestOverlap (0, b.tokens.length)
        ((slidingChunks 200 100 (flattenTokens [b])).map
          (fun c => (c.2.1, c.2.2))) ∧
    0 ≤ (chunkPage [b]).consistency_score ∧
    (chunkPage [b]).consistency_score ≤ 1 := by
  have hsem : semanticChunks 300 [b] = [[b]] := by
    simp [semanticChunks, semanticStep, hasNonHeading, hb]
  have hint : semanticIntervals 300 [b] = [(0, b.tokens.length)] := by
    rw [semanticIntervals, hsem]
    simp [blocksTokenCount]
  have hcs : (chunkPage [b]).consistency_score =
      bestOverlap (0, b.tokens.length)
        ((slidingChunks 200 100 (flattenTokens [b])).map
          (fun c => (c.2.1, c.2.2))) := by
    show consistencyScore (semanticIntervals 300 [b]) _ = _
    rw [hint, consistencyScore]
    norm_num
  refine ⟨rfl, rfl, rfl, ?_, hcs, ?_, ?_⟩
  · show semanticChunks 300 [b] = [[b]]
    exact hsem
  · rw [hcs]
    exact bestOverlap_nonneg _ _
  · rw [hcs]
    exact bestOverlap_le_one _ _

/-- C7 witness: the edge cases evaluated at a concrete paragraph block. -/
theorem chunker_edge_cases_witness :
    (chunkPage []).semantic = [] ∧
    (chunkPage []).sliding = [] ∧
    (chunkPage []).consistency_score = 0 ∧
    (chunkPage [⟨BlockTag.paragraph, ["Price", "is", "10"]⟩]).semantic =
      [[⟨BlockTag.paragraph, ["Price", "is", "10"]⟩]] ∧
    (chunkPage [⟨BlockTag.paragraph, ["Price", "is", "10"]⟩]).consistency_score =
      bestOverlap (0, (⟨BlockTag.paragraph, ["Price", "is", "10"]⟩ : Block).tokens.length)
        ((slidingChunks 200 100
          (flattenTokens [⟨BlockTag.paragraph, ["Price", "is", "10"]⟩])).map
          (fun c => (c.2.1, c.2.2))) ∧
    0 ≤ (chunkPage [⟨BlockTag.paragraph, ["Price", "is", "10"]⟩]).consistency_score ∧
    (chunkPage [⟨BlockTag.paragraph, ["Price", "is", "10"]⟩]).consistency_score ≤ 1 :=
  chunker_edge_cases ⟨BlockTag.paragraph, ["Price", "is", "10"]⟩ rfl

/-- C1 counterexample: on a concrete report whose `retrieval_stats` field is
absent, the dashboard's displayed retrieval recall is 0 and its composite
score equals that of the same report carrying an actual `recall_at_5 = 0` —
the missing value is substituted by zero, not treated as insufficient
data. -/
theorem dashboard_zero_substitution_counterexample :
    missingRecallReport.retrieval_stats = none ∧
    dashRecall missingRecallReport = 0 ∧
    dashRecall missingRecallReport = dashRecall zeroRecallReport ∧
    dashGlobalScore missingRecallReport = dashGlobalScore zeroRecallReport := by
  refine ⟨rfl, ?_, ?_, ?_⟩ <;>
    norm_num [dashGlobalScore, dashAvgStructure, dashAvgClarity, dashRecall,
      jsRound, jsOrZero, missingRecallReport, zeroRecallReport]

/-- C1 amended: whenever `retrieval_stats` is absent or its `recall_at_5` is
nullish, the dashboard displays a retrieval recall of 0 and computes the
composite score with a zero recall term — missing recall values are
substituted by zero, not treated as insufficient data. -/
theorem dashboard_missing_recall_substitutes_zero (d : ReportData)
    (h : d.retrieval_stats.bind (fun s => s.recall_at_5) = none) :
    dashRecall d = 0 ∧
    dashGlobalScore d =
      jsRound (((dashAvgStructure d : ℚ) + (dashAvgClarity d : ℚ) + 0) / 3) := by
  have h0 : dashRecall d = 0 := by
    rw [dashRecall, h]
    norm_num [jsRound]
  refine ⟨h0, ?_⟩
  rw [dashGlobalScore, h0]
  norm_num

/-- C1 witness: the amended statement evaluated on `missingRecallReport`. -/
theorem dashboard_missing_recall_substitutes_zero_witness :
    dashRecall missingRecallReport = 0 ∧
    dashGlobalScore missingRecallReport =
      jsRound (((dashAvgStructure missingRecallReport : ℚ) +
        (dashAvgClarity missingRecallReport : ℚ) + 0) / 3) :=
  dashboard_missing_recall_substitutes_zero missingRecallReport rfl

/-- C10 witness: a one-page report containing the metric, evaluated
through the theorem. -/
theorem site_metric_averages_agree_witness :
    siteMetricsAvg [⟨"https://example.com/a",
        some [("dom_to_token_ratio", ⟨"dom_to_token_ratio", 1, 1⟩)],
        ⟨none, none⟩⟩] "dom_to_token_ratio" =
      getAvgMetricScore [⟨"https://example.com/a",
        some [("dom_to_token_ratio", ⟨"dom_to_token_ratio", 1, 1⟩)],
        ⟨none, none⟩⟩] "dom_to_token_ratio" :=
  (site_metric_averages_agree
    [⟨"https://example.com/a",
        some [("dom_to_token_ratio", ⟨"dom_to_token_ratio", 1, 1⟩)],
        ⟨none, none⟩⟩] "dom_to_token_ratio"
    (by decide) (by decide)).1

end Aeo
